import Mathlib

/-!
Verification of the euporie kernel-tab / selection / logging core against its
specification.  The Python source is shallowly embedded: Python dicts become
association lists preserving insertion order, slices become a structure of two
integers plus an optional step, and side effects (showing dialogs, invoking
comm handlers and log hooks) become explicit values or event traces.
-/

namespace Euporie

/-! ## Definitions -/

/-! ### Python dict model

Python dicts preserve insertion order; assigning to an existing key replaces
its value in place, assigning a fresh key appends, and `del` removes the entry.
-/

/-- Lookup of a key in an insertion-ordered dict (`d[k]` / `d.get(k)`). -/
def dlookup {K V : Type} [DecidableEq K] : List (K × V) → K → Option V
  | [], _ => none
  | (k, v) :: rest, key => if k = key then some v else dlookup rest key

/-- Membership test of a key in a dict (`k in d`). -/
def dcontains {K V : Type} [DecidableEq K] (d : List (K × V)) (key : K) : Bool :=
  (dlookup d key).isSome

/-- Assignment `d[k] = v`: replace in place when the key exists, else append. -/
def dset {K V : Type} [DecidableEq K] : List (K × V) → K → V → List (K × V)
  | [], key, v => [(key, v)]
  | (k, w) :: rest, key, v =>
      if k = key then (k, v) :: rest else (k, w) :: dset rest key v

/-- Deletion `del d[k]`: removes the entry for the key. -/
def ddel {K V : Type} [DecidableEq K] : List (K × V) → K → List (K × V)
  | [], _ => []
  | (k, w) :: rest, key => if k = key then rest else (k, w) :: ddel rest key

/-! ### Selection state machine

A Python `slice(start, stop, step)` over the notebook's cell list.  The
commands in `euporie/commands/notebook.py` assign a new slice to
`nb.page.selected_slice`; the slice arithmetic below is transcribed from those
command bodies.
-/

/-- A Python slice value: `slice(start, stop)` has `step = none` (Python
`None`); the extend commands set an explicit step of `1` or `-1`. -/
structure PySlice where
  start : Int
  stop : Int
  step : Option Int
deriving DecidableEq, Repr

/-- Modelled from the spec: the page's `selected_slice` property (class owning
`nb.page`, outside the excerpt) stores the assigned slice unchanged; per the
spec's clamping policy the transitions compute the intended range and clamping
to `[0, N)` is a separate normalization applied at render time. -/
def page_set_selected_slice (s : PySlice) : PySlice := s

/-- Command `select_previous_cell` (move-up one cell):
`slice(selected_slice.start - 1, selected_slice.start)`. -/
def select_previous_cell (page : PySlice) : PySlice :=
  page_set_selected_slice ⟨page.start - 1, page.start, none⟩

/-- Command `next_child` (move-down one cell):
`slice(selected_slice.start + 1, selected_slice.start + 1 + 1)`. -/
def next_child (page : PySlice) : PySlice :=
  page_set_selected_slice ⟨page.start + 1, page.start + 1 + 1, none⟩

/-- Command `extend_cell_selection_up`: if `start - 1 == stop` flip the anchor
to `slice(stop, start + 1, 1)`, else move the near edge to
`slice(start - 1, stop, step)`. -/
def extend_cell_selection_up (page : PySlice) : PySlice :=
  if page.start - 1 = page.stop then
    page_set_selected_slice ⟨page.stop, page.start + 1, some 1⟩
  else
    page_set_selected_slice ⟨page.start - 1, page.stop, page.step⟩

/-- Command `extend_cell_selection_down`: if `start + 1 == stop` flip the
anchor to `slice(stop, start - 1, -1)`, else `slice(start + 1, stop, step)`. -/
def extend_cell_selection_down (page : PySlice) : PySlice :=
  if page.start + 1 = page.stop then
    page_set_selected_slice ⟨page.stop, page.start - 1, some (-1)⟩
  else
    page_set_selected_slice ⟨page.start + 1, page.stop, page.step⟩

/-- Command `select_last_cell`: assigns
`slice(len(page.children), len(page.children) + 1)` without reading the prior
selection. -/
def select_last_cell (n : Nat) (_page : PySlice) : PySlice :=
  page_set_selected_slice ⟨(n : Int), (n : Int) + 1, none⟩

/-- Command `select_all_cells`: assigns `slice(0, len(page.children) + 1)`
without reading the prior selection. -/
def select_all_cells (n : Nat) (_page : PySlice) : PySlice :=
  page_set_selected_slice ⟨0, (n : Int) + 1, none⟩

/-- Iterated application of `extend_cell_selection_up`. -/
def iter_extend_up : Nat → PySlice → PySlice
  | 0, s => s
  | n + 1, s => iter_extend_up n (extend_cell_selection_up s)

/-- Number of times the anchor-flip branch (`start - 1 == stop`) of
`extend_cell_selection_up` is taken over the given number of applications. -/
def flip_count : Nat → PySlice → Nat
  | 0, _ => 0
  | n + 1, s =>
      (if s.start - 1 = s.stop then 1 else 0) + flip_count n (extend_cell_selection_up s)

/-! ### KernelTab comm registry

`KernelTab.comm_open`, `comm_msg` and `comm_close` in
`euporie/core/tabs/base.py` adapt the inbound message envelope to the
client-side comm map `self.comms : Dict[str, Comm]`.  `comm_open` and
`comm_msg` coerce the envelope's `comm_id` through `str(...)`, `comm_close`
uses the raw value of `content.get("comm_id")`.
-/

/-- Payload of a comm message (`content["data"]`), kept as an opaque
string-keyed mapping. -/
def CommData : Type := List (String × String)

instance : DecidableEq CommData := by
  unfold CommData
  infer_instance

/-- A message envelope's content as read by the comm adapters: the optional
`comm_id` (absent keys give Python `None`), the optional `data`, and the
optional `target_name`. -/
structure CommContent where
  comm_id : Option String
  data : Option CommData
  target_name : Option String
deriving DecidableEq

/-- Python `str(...)` applied to the envelope's `comm_id`: the identity on a
string, and the literal "None" for a missing value. -/
def py_str : Option String → String
  | some s => s
  | none => "None"

/-- Modelled from the spec: `open_comm` (euporie.core.comm.registry, outside
the excerpt) constructs a comm handler for the message's target name, falling
back to a generic handler when the target is unknown; here we record the
construction inputs. -/
structure Comm where
  target : Option String
  init_data : CommData
  init_buffers : List (List Nat)
deriving DecidableEq

/-- Construction of a comm handler from the open message. -/
def open_comm (content : CommContent) (buffers : List (List Nat)) : Comm :=
  ⟨content.target_name, content.data.getD [], buffers⟩

/-- The client-side comm map of a tab (`self.comms`). -/
def Comms : Type := List (String × Comm)

instance : DecidableEq Comms := by
  unfold Comms
  infer_instance

/-- An observable effect of comm dispatch: a comm handler's `process_data`
being invoked with the message's data and buffers. -/
inductive CommEvent where
  | processData (c : Comm) (data : CommData) (buffers : List (List Nat))
deriving DecidableEq

/-- `KernelTab.comm_open`: registers `open_comm(...)` under
`str(content.get("comm_id"))`. -/
def comm_open (comms : Comms) (content : CommContent)
    (buffers : List (List Nat)) : Comms :=
  dset comms (py_str content.comm_id) (open_comm content buffers)

/-- `KernelTab.comm_msg`: looks up `str(content.get("comm_id"))`; when a comm
is found its `process_data` is invoked with `content.get("data", {})` and the
buffers, otherwise the message is dropped.  The returned list is the trace of
handler invocations. -/
def comm_msg (comms : Comms) (content : CommContent)
    (buffers : List (List Nat)) : List CommEvent :=
  match dlookup comms (py_str content.comm_id) with
  | some c => [.processData c (content.data.getD []) buffers]
  | none => []

/-- `KernelTab.comm_close`: reads the raw `content.get("comm_id")` (no `str`
coercion) and deletes the entry when that raw value is a key of the map; a
missing `comm_id` (Python `None`) is never a key of the string-keyed map. -/
def comm_close (comms : Comms) (content : CommContent)
    (_buffers : List (List Nat)) : Comms :=
  match content.comm_id with
  | some cid => if dcontains comms cid then ddel comms cid else comms
  | none => comms

/-! ### KernelTab kernel actions -/

/-- A call into the kernel session. -/
inductive KernelOp where
  | restart
  | interrupt
deriving DecidableEq

/-- The observable outcome of `KernelTab.restart_kernel`: either the
confirmation dialog is shown with the kernel call installed as its callback,
or the kernel call happens immediately. -/
inductive RestartAction where
  | confirmThen (message : String) (cb : KernelOp)
  | immediate (op : KernelOp)
deriving DecidableEq

/-- `KernelTab.restart_kernel`: when `self.app.dialogs.get("confirm")` yields
a dialog (modelled by the name "confirm" being registered), show it with
`cb=self.kernel.restart`; otherwise call `self.kernel.restart()` directly. -/
def restart_kernel (dialogs : List String) : RestartAction :=
  if dialogs.contains "confirm" then
    .confirmThen "Are you sure you want to restart the kernel?" .restart
  else
    .immediate .restart

/-- Modelled from the spec: the application's dialog registry
(`self.app.dialogs`, outside the excerpt).  Showing a dialog surfaces it and
registers it under its name, so that a registered name means the dialog has
already been surfaced; this realizes the spec's "suppressed on startup after
the first notice". -/
def show_dialog (dialogs : List String) (name : String) : List String :=
  if dialogs.contains name then dialogs else dialogs ++ [name]

/-- The observable outcome of `KernelTab.change_kernel`. -/
inductive KernelAction where
  | showNoKernelsDialog
  | changeTo (spec_name : String)
  | showChangeKernelDialog (msg : Option String) (specs : List String)
  | noAction
deriving DecidableEq

/-- Result of `change_kernel`: the action taken and the dialog registry after
the call. -/
structure ChangeKernelResult where
  action : KernelAction
  dialogs : List String
deriving DecidableEq

/-- `KernelTab.change_kernel(msg, startup)`: with no discoverable kernel specs,
show the "no-kernels" notice only when this is a startup check and the notice
is not yet registered, then return; with exactly one spec on a startup check,
change to it (`list(kernel_specs)[0]`) without prompting; otherwise show the
"change-kernel" selection dialog with the available specs. -/
def change_kernel (specs : List String) (dialogs : List String)
    (startup : Bool) (msg : Option String) : ChangeKernelResult :=
  if specs.isEmpty then
    if startup && !(dialogs.contains "no-kernels") then
      ⟨.showNoKernelsDialog, show_dialog dialogs "no-kernels"⟩
    else
      ⟨.noAction, dialogs⟩
  else if startup && specs.length == 1 then
    ⟨.changeTo (specs.headD ""), dialogs⟩
  else
    ⟨.showChangeKernelDialog msg specs, show_dialog dialogs "change-kernel"⟩

/-! ### KernelTab metadata

`KernelTab.kernel_name` getter/setter act on `self._metadata : Dict[str, Any]`.
Metadata values are either opaque leaves or one level of string-keyed dict
(the shape the kernelspec sub-mapping has).
-/

/-- A metadata value: an opaque leaf or a string-keyed sub-mapping. -/
inductive MetaVal where
  | leaf (v : String)
  | dict (entries : List (String × String))
deriving DecidableEq

/-- The tab metadata mapping (`self._metadata`). -/
def Metadata : Type := List (String × MetaVal)

instance : DecidableEq Metadata := by
  unfold Metadata
  infer_instance

/-- The entries of the "kernelspec" sub-mapping, empty when absent. -/
def kernelspec_entries (md : Metadata) : List (String × String) :=
  match dlookup md "kernelspec" with
  | some (.dict ks) => ks
  | _ => []

/-- Check that the "kernelspec" entry, if present, is a sub-mapping (Python
would raise a TypeError on item assignment otherwise). -/
def kernelspec_is_dict_or_absent (md : Metadata) : Bool :=
  match dlookup md "kernelspec" with
  | some (.leaf _) => false
  | _ => true

/-- `KernelTab.kernel_name` setter:
`self.metadata.setdefault("kernelspec", {})["name"] = value`; `none` models
the TypeError raised when the existing "kernelspec" value is not a dict. -/
def kernel_name_set (md : Metadata) (value : String) : Option Metadata :=
  match dlookup md "kernelspec" with
  | none => some (dset md "kernelspec" (.dict (dset [] "name" value)))
  | some (.dict ks) => some (dset md "kernelspec" (.dict (dset ks "name" value)))
  | some (.leaf _) => none

/-- `KernelTab.kernel_name` getter:
`self.metadata.get("kernelspec", {}).get("name", default_kernel_name)`;
`none` models the AttributeError raised when the "kernelspec" value is not a
dict. -/
def kernel_name_get (md : Metadata) (default_name : String) : Option String :=
  match dlookup md "kernelspec" with
  | none => some default_name
  | some (.dict ks) => some ((dlookup ks "name").getD default_name)
  | some (.leaf _) => none

/-! ### Log queue

`euporie/log.py`: `LOG_QUEUE` is a `deque(maxlen=1000)`; `QueueHandler.emit`
appends the record to the queue and calls every registered hook with it;
`QueueHandler.hook` hands out ids from a strictly increasing class counter;
`QueueHandler.unhook` removes a registered id and ignores unknown ids.
-/

/-- A structured log record. -/
structure LogRecord where
  timestamp : Nat
  level : Nat
  message : String
  source_location : String
deriving DecidableEq

/-- A registered hook function; `callable` mirrors the `callable(hook)` guard
in `QueueHandler.emit`. -/
structure HookFn where
  name : String
  callable : Bool
deriving DecidableEq

/-- The class-level hook state of `QueueHandler`: the next id to hand out and
the registered hooks keyed by id. -/
structure QueueHandlerState where
  hook_id : Nat
  hooks : List (Nat × HookFn)
deriving DecidableEq

/-- Appending to a Python `deque` with a maximum length: when the deque is at
capacity the oldest (leftmost) record is evicted. -/
def deque_append (maxlen : Nat) (q : List LogRecord) (r : LogRecord) : List LogRecord :=
  (q ++ [r]).drop (q.length + 1 - maxlen)

/-- `QueueHandler.emit`: appends the record to the queue, then synchronously
invokes every registered callable hook with the record, in registration
order.  The second component is the trace of hook invocations. -/
def emit (maxlen : Nat) (hooks : List (Nat × HookFn)) (q : List LogRecord)
    (r : LogRecord) : List LogRecord × List (HookFn × LogRecord) :=
  (deque_append maxlen q r,
    ((hooks.map Prod.snd).filter (fun h => h.callable)).map (fun h => (h, r)))

/-- Emission of a whole list of records in order, accumulating the queue and
the concatenated hook-invocation trace. -/
def emit_all (maxlen : Nat) (hooks : List (Nat × HookFn)) :
    List LogRecord → List LogRecord → List LogRecord × List (HookFn × LogRecord)
  | q, [] => (q, [])
  | q, r :: rs =>
      ((emit_all maxlen hooks (emit maxlen hooks q r).1 rs).1,
        (emit maxlen hooks q r).2 ++ (emit_all maxlen hooks (emit maxlen hooks q r).1 rs).2)

/-- `QueueHandler.hook`: returns the current counter value as the new hook's
id, increments the counter, and registers the hook under that id. -/
def qh_hook (st : QueueHandlerState) (f : HookFn) : Nat × QueueHandlerState :=
  (st.hook_id, ⟨st.hook_id + 1, dset st.hooks st.hook_id f⟩)

/-- `QueueHandler.unhook`: deletes the hook when the id is registered and is a
no-op otherwise. -/
def qh_unhook (st : QueueHandlerState) (i : Nat) : QueueHandlerState :=
  if dcontains st.hooks i then ⟨st.hook_id, ddel st.hooks i⟩ else st

/-- Well-formedness of the hook state: every registered id was handed out
before the current counter value. -/
def qh_wf (st : QueueHandlerState) : Prop :=
  ∀ p ∈ st.hooks, p.1 < st.hook_id

/-- Sample records used by the witness theorems. -/
def sample_records : List LogRecord :=
  (List.range 7).map (fun i => ⟨i, 20, "msg", "euporie.log"⟩)

/-- Sample hook registry used by the witness theorems. -/
def sample_hooks : List (Nat × HookFn) :=
  [(0, ⟨"viewer", true⟩)]

/-! ## Theorems -/

/-! ### Dict lemmas -/

theorem dlookup_dset_self {K V : Type} [DecidableEq K]
    (d : List (K × V)) (k : K) (v : V) : dlookup (dset d k v) k = some v := by
  induction d with
  | nil => simp [dset, dlookup]
  | cons p rest ih =>
      obtain ⟨k', w⟩ := p
      by_cases h : k' = k
      · simp [dset, dlookup, h]
      · simp [dset, dlookup, h, ih]

theorem dlookup_dset_ne {K V : Type} [DecidableEq K]
    (d : List (K × V)) (k j : K) (v : V) (h : j ≠ k) :
    dlookup (dset d k v) j = dlookup d j := by
  have hkj : k ≠ j := Ne.symm h
  induction d with
  | nil => simp [dset, dlookup, hkj]
  | cons p rest ih =>
      obtain ⟨k', w⟩ := p
      by_cases hk : k' = k
      · subst hk
        simp [dset, dlookup, hkj]
      · by_cases hj : k' = j
        · subst hj
          simp [dset, dlookup, hk]
        · simp [dset, dlookup, hk, hj, ih]

theorem dset_fresh {K V : Type} [DecidableEq K]
    (d : List (K × V)) (k : K) (v : V) (h : dcontains d k = false) :
    dset d k v = d ++ [(k, v)] := by
  induction d with
  | nil => simp [dset]
  | cons p rest ih =>
      obtain ⟨k', w⟩ := p
      by_cases hk : k' = k
      · exfalso
        simp [dcontains, dlookup, hk] at h
      · have h' : dcontains rest k = false := by
          simpa [dcontains, dlookup, hk] using h
        simp [dset, hk, ih h']

theorem ddel_dset_fresh {K V : Type} [DecidableEq K]
    (d : List (K × V)) (k : K) (v : V) (h : dcontains d k = false) :
    ddel (dset d k v) k = d := by
  induction d with
  | nil => simp [dset, ddel]
  | cons p rest ih =>
      obtain ⟨k', w⟩ := p
      by_cases hk : k' = k
      · exfalso
        simp [dcontains, dlookup, hk] at h
      · have h' : dcontains rest k = false := by
          simpa [dcontains, dlookup, hk] using h
        simp [dset, ddel, hk, ih h']

theorem dcontains_dset_self {K V : Type} [DecidableEq K]
    (d : List (K × V)) (k : K) (v : V) : dcontains (dset d k v) k = true := by
  simp [dcontains, dlookup_dset_self]

theorem dlookup_mem {K V : Type} [DecidableEq K]
    (d : List (K × V)) (k : K) (v : V) (h : dlookup d k = some v) : (k, v) ∈ d := by
  induction d with
  | nil => simp [dlookup] at h
  | cons p rest ih =>
      obtain ⟨k', w⟩ := p
      by_cases hk : k' = k
      · subst hk
        simp [dlookup] at h
        simp [h]
      · simp [dlookup, hk] at h
        exact List.mem_cons_of_mem _ (ih h)

theorem dcontains_eq_false_of_ne {K V : Type} [DecidableEq K]
    (d : List (K × V)) (k : K) (h : ∀ p ∈ d, p.1 ≠ k) : dcontains d k = false := by
  induction d with
  | nil => rfl
  | cons p rest ih =>
      obtain ⟨k', w⟩ := p
      have hk : k' ≠ k := h (k', w) (List.mem_cons_self _ _)
      have h' : ∀ p ∈ rest, p.1 ≠ k := fun p hp => h p (List.mem_cons_of_mem _ hp)
      simpa [dcontains, dlookup, hk] using ih h'

/-! ### Selection lemmas -/

theorem iter_extend_up_of_le (j : Nat) :
    ∀ (a b : Int) (st : Option Int), a ≤ b →
      iter_extend_up j ⟨a, b, st⟩ = ⟨a - j, b, st⟩ ∧ flip_count j ⟨a, b, st⟩ = 0 := by
  induction j with
  | zero => intro a b st _; simp [iter_extend_up, flip_count]
  | succ n ih =>
      intro a b st h
      have hne : a - 1 ≠ b := by omega
      have hstep : extend_cell_selection_up ⟨a, b, st⟩ = ⟨a - 1, b, st⟩ := by
        simp [extend_cell_selection_up, page_set_selected_slice, hne]
      have hle : a - 1 ≤ b := by omega
      obtain ⟨h1, h2⟩ := ih (a - 1) b st hle
      constructor
      · show iter_extend_up n (extend_cell_selection_up ⟨a, b, st⟩) = _
        rw [hstep, h1]
        congr 1
        push_cast
        ring
      · show (if (⟨a, b, st⟩ : PySlice).start - 1 = (⟨a, b, st⟩ : PySlice).stop
              then 1 else 0) + flip_count n (extend_cell_selection_up ⟨a, b, st⟩) = 0
        rw [hstep, h2]
        simp [hne]

/-! ### Log queue lemmas -/

theorem fold_deque_append (maxlen : Nat) :
    ∀ (rs q : List LogRecord), q.length ≤ maxlen →
      List.foldl (deque_append maxlen) q rs =
        (q ++ rs).drop (q.length + rs.length - maxlen) := by
  intro rs
  induction rs with
  | nil =>
      intro q h
      simp [Nat.sub_eq_zero_of_le h]
  | cons r rs ih =>
      intro q h
      rw [List.foldl_cons]
      have hlen : (deque_append maxlen q r).length =
          q.length + 1 - (q.length + 1 - maxlen) := by
        simp [deque_append]
      have hle : (deque_append maxlen q r).length ≤ maxlen := by omega
      rw [ih _ hle]
      have hd : q.length + 1 - maxlen ≤ (q ++ [r]).length := by
        simp only [List.length_append, List.length_singleton]
        omega
      rw [show deque_append maxlen q r ++ rs =
            ((q ++ [r]) ++ rs).drop (q.length + 1 - maxlen) from by
          rw [deque_append, List.drop_append_of_le_length hd]]
      rw [List.drop_drop]
      rw [show (q ++ [r]) ++ rs = q ++ (r :: rs) from by simp]
      congr 1
      rw [hlen]
      simp only [List.length_cons]
      omega

theorem emit_all_queue (maxlen : Nat) (hooks : List (Nat × HookFn)) :
    ∀ (rs q : List LogRecord),
      (emit_all maxlen hooks q rs).1 = List.foldl (deque_append maxlen) q rs := by
  intro rs
  induction rs with
  | nil => intro q; rfl
  | cons r rs ih => intro q; simpa [emit_all, emit] using ih _

theorem emit_all_trace (maxlen : Nat) (hooks : List (Nat × HookFn)) :
    ∀ (rs q : List LogRecord),
      (emit_all maxlen hooks q rs).2 =
        (rs.map (fun r =>
          ((hooks.map Prod.snd).filter (fun h => h.callable)).map
            (fun h => (h, r)))).flatten := by
  intro rs
  induction rs with
  | nil => intro q; rfl
  | cons r rs ih => intro q; simpa [emit_all, emit] using ih _

/-! ### Claim theorems -/

/-- C1: repeated extend-up from a single-cell selection (k, k+1) flips the
anchor exactly once, at the step where start - 1 == stop.  False: from the
scenario state (10, 11) reached by select-last with N = 10, five applications
of extend-up never take the flip branch (the flip count is 0, not 1). -/
theorem extend_up_flip_counterexample :
    flip_count 5 (select_last_cell 10 ⟨0, 1, none⟩) = 0 ∧
      flip_count 5 (select_last_cell 10 ⟨0, 1, none⟩) ≠ 1 := by
  constructor
  · rfl
  · intro h
    exact absurd h (by decide)

/-- C1 (amended): repeated extend-up from a single-cell selection (k, k+1)
monotonically grows the low edge — after j applications the selection is
(k - j, k + 1) — and the anchor-flip branch (start - 1 == stop) is never
taken; with N = 10 and start state (0, 1), select-last gives (10, 11), the
first extend-up gives (9, 11), and five extend-ups give (5, 11). -/
theorem extend_up_grows_low_edge (k : Int) (j : Nat) :
    iter_extend_up j ⟨k, k + 1, none⟩ = ⟨k - j, k + 1, none⟩ ∧
      flip_count j ⟨k, k + 1, none⟩ = 0 ∧
      select_last_cell 10 ⟨0, 1, none⟩ = ⟨10, 11, none⟩ ∧
      iter_extend_up 1 (select_last_cell 10 ⟨0, 1, none⟩) = ⟨9, 11, none⟩ ∧
      iter_extend_up 5 (select_last_cell 10 ⟨0, 1, none⟩) = ⟨5, 11, none⟩ := by
  obtain ⟨h1, h2⟩ := iter_extend_up_of_le j k (k + 1) none (by omega)
  exact ⟨h1, h2, rfl, by decide, by decide⟩

/-- C2: move-down followed by move-up returns any selection state to the
original (start, stop).  False: from (0, 3) the round trip yields (0, 1). -/
theorem move_down_up_counterexample :
    select_previous_cell (next_child ⟨0, 3, none⟩) ≠ ⟨0, 3, none⟩ := by
  decide

/-- C2 (amended): move-down followed by move-up from any state (start, stop)
yields (start, start + 1); this coincides with the original start/stop pair
exactly when stop = start + 1 (a single-cell selection). -/
theorem move_down_up_round_trip (s : PySlice) :
    select_previous_cell (next_child s) =
        page_set_selected_slice ⟨s.start, s.start + 1, none⟩ ∧
      (((select_previous_cell (next_child s)).start = s.start ∧
         (select_previous_cell (next_child s)).stop = s.stop) ↔
        s.stop = s.start + 1) := by
  constructor
  · show (⟨s.start + 1 - 1, s.start + 1, none⟩ : PySlice) = ⟨s.start, s.start + 1, none⟩
    congr 1
    omega
  · constructor
    · intro ⟨_, h2⟩
      simpa [select_previous_cell, next_child, page_set_selected_slice] using h2.symm
    · intro h
      refine ⟨by simp [select_previous_cell, next_child, page_set_selected_slice], ?_⟩
      simpa [select_previous_cell, next_child, page_set_selected_slice] using h.symm

/-- C4: for every notebook of length N, select-last sets the selection to
exactly (N, N + 1) — one past the last valid index, the sentinel contract —
and select-all sets it to exactly (0, N + 1), regardless of the prior
selection state. -/
theorem select_last_and_all (n : Nat) (page : PySlice) :
    select_last_cell n page = ⟨(n : Int), (n : Int) + 1, none⟩ ∧
      select_all_cells n page = ⟨0, (n : Int) + 1, none⟩ :=
  ⟨rfl, rfl⟩

/-- C5: after comm_open(id) followed by comm_close(id), a subsequent
comm_msg(id) is dropped without invoking any handler, the comm map is back to
its pre-open size (indeed equal to the pre-open map), and a second
comm_close(id) is a no-op. -/
theorem comm_lifecycle (comms : Comms) (cid : String) (content : CommContent)
    (bufs bufs2 bufs3 bufs4 : List (List Nat))
    (hcid : content.comm_id = some cid)
    (hfresh : dcontains comms cid = false) :
    comm_close (comm_open comms content bufs) content bufs2 = comms ∧
      (comm_close (comm_open comms content bufs) content bufs2).length =
        comms.length ∧
      comm_msg (comm_close (comm_open comms content bufs) content bufs2)
        content bufs3 = [] ∧
      comm_close (comm_close (comm_open comms content bufs) content bufs2)
        content bufs4 = comms := by
  have hps : py_str content.comm_id = cid := by rw [hcid]; rfl
  have hopen : comm_open comms content bufs =
      dset comms cid (open_comm content bufs) := by
    rw [comm_open, hps]
  have hclose : comm_close (comm_open comms content bufs) content bufs2 = comms := by
    rw [comm_close, hcid, hopen]
    simp only [dcontains_dset_self, if_true]
    exact ddel_dset_fresh comms cid _ hfresh
  refine ⟨hclose, by rw [hclose], ?_, ?_⟩
  · rw [hclose, comm_msg, hps]
    have : dlookup comms cid = none := by
      simpa [dcontains, Option.isSome_iff_exists] using hfresh
    rw [this]
  · rw [hclose]
    simp [comm_close, hcid, hfresh]

/-- C5 witness: the lifecycle theorem instantiated at a fresh comm id "c1" on
an empty comm map. -/
theorem comm_lifecycle_witness :
    comm_close (comm_open [] ⟨some "c1", none, some "t"⟩ [])
        ⟨some "c1", none, some "t"⟩ [] = ([] : Comms) ∧
      (comm_close (comm_open [] ⟨some "c1", none, some "t"⟩ [])
          ⟨some "c1", none, some "t"⟩ []).length = ([] : Comms).length ∧
      comm_msg (comm_close (comm_open [] ⟨some "c1", none, some "t"⟩ [])
          ⟨some "c1", none, some "t"⟩ []) ⟨some "c1", none, some "t"⟩ [] = [] ∧
      comm_close (comm_close (comm_open [] ⟨some "c1", none, some "t"⟩ [])
          ⟨some "c1", none, some "t"⟩ []) ⟨some "c1", none, some "t"⟩ [] =
        ([] : Comms) :=
  comm_lifecycle [] "c1" ⟨some "c1", none, some "t"⟩ [] [] [] [] rfl rfl

/-- C9: a comm_open whose content lacks a comm_id registers the comm under the
string key "None" (str coercion), and a subsequent comm_close whose content
also lacks a comm_id leaves the map unchanged, so that comm stays registered
(close uses the raw None, which is not a key of the string-keyed map). -/
theorem comm_open_close_none_key (comms : Comms) (data data2 : Option CommData)
    (tgt tgt2 : Option String) (bufs bufs2 : List (List Nat)) :
    dlookup (comm_open comms ⟨none, data, tgt⟩ bufs) "None" =
        some (open_comm ⟨none, data, tgt⟩ bufs) ∧
      comm_close (comm_open comms ⟨none, data, tgt⟩ bufs) ⟨none, data2, tgt2⟩
          bufs2 =
        comm_open comms ⟨none, data, tgt⟩ bufs := by
  constructor
  · exact dlookup_dset_self comms "None" _
  · rfl

/-- C6: when a confirmation surface is available the session restart is not
called directly but only installed as the confirmation callback; when none is
available the restart is called immediately. -/
theorem restart_kernel_gated (dialogs : List String) :
    (dialogs.contains "confirm" = true →
      restart_kernel dialogs =
        .confirmThen "Are you sure you want to restart the kernel?" .restart ∧
      ∀ op, restart_kernel dialogs ≠ .immediate op) ∧
    (dialogs.contains "confirm" = false →
      restart_kernel dialogs = .immediate .restart) := by
  constructor
  · intro h
    have hm : "confirm" ∈ dialogs := by simpa using h
    refine ⟨by simp [restart_kernel, hm], ?_⟩
    intro op
    simp [restart_kernel, hm]
  · intro h
    have hm : "confirm" ∉ dialogs := by simpa using h
    simp [restart_kernel, hm]

/-- C6 witness: restart goes through the confirmation callback when the
confirm dialog exists, and direct when it does not. -/
theorem restart_kernel_gated_witness :
    restart_kernel ["confirm"] =
        .confirmThen "Are you sure you want to restart the kernel?" .restart ∧
      restart_kernel [] = .immediate .restart :=
  ⟨((restart_kernel_gated ["confirm"]).1 rfl).1,
    (restart_kernel_gated []).2 rfl⟩

/-- C3: whenever the kernel spec set is empty a "no kernels available" notice
is surfaced (suppressed after the first notice on startup).  False: on a
non-startup call with no specs and the notice never shown before, no notice is
surfaced at all — the call is silent. -/
theorem change_kernel_counterexample :
    (change_kernel [] [] false none).action = .noAction ∧
      (change_kernel [] [] false none).action ≠ .showNoKernelsDialog := by
  constructor
  · rfl
  · intro h
    exact absurd h (by decide)

/-- C3 (amended): with empty specs the call never delegates to the selection
surface nor selects a kernel, and the notice is surfaced exactly when the call
is a startup check and the notice is not yet registered — so an immediately
following startup check is suppressed; with exactly one spec on a startup
check that spec is selected without prompting; in every other case with
non-empty specs the selection surface is shown with the available specs. -/
theorem change_kernel_cases (specs dialogs : List String) (startup : Bool)
    (msg msg2 : Option String) :
    (specs = [] →
      ((∀ m ss, (change_kernel specs dialogs startup msg).action ≠
          .showChangeKernelDialog m ss) ∧
        (∀ n, (change_kernel specs dialogs startup msg).action ≠ .changeTo n) ∧
        ((change_kernel specs dialogs startup msg).action = .showNoKernelsDialog ↔
          startup = true ∧ dialogs.contains "no-kernels" = false))) ∧
    (specs = [] → startup = true →
      (change_kernel []
          (change_kernel specs dialogs startup msg).dialogs true msg2).action =
        .noAction) ∧
    (startup = true → ∀ s, specs = [s] →
      (change_kernel specs dialogs startup msg).action = .changeTo s) ∧
    (specs ≠ [] → (startup = true → specs.length ≠ 1) →
      (change_kernel specs dialogs startup msg).action =
        .showChangeKernelDialog msg specs) := by
  refine ⟨?_, ?_, ?_, ?_⟩
  · intro hs
    subst hs
    by_cases hb : startup = true
    · by_cases hm : "no-kernels" ∈ dialogs
      · simp [change_kernel, hb, hm]
      · simp [change_kernel, hb, hm]
    · simp only [Bool.not_eq_true] at hb
      simp [change_kernel, hb]
  · intro hs hb
    subst hs
    subst hb
    by_cases hm : "no-kernels" ∈ dialogs
    · simp [change_kernel, hm]
    · simp [change_kernel, show_dialog, hm]
  · intro hb s hs
    subst hs
    subst hb
    simp [change_kernel]
  · intro hne hlen
    have hempty : specs.isEmpty = false := by
      cases specs with
      | nil => exact absurd rfl hne
      | cons a l => rfl
    by_cases hb : startup = true
    · have h1 : specs.length ≠ 1 := hlen hb
      have : (specs.length == 1) = false := by
        simpa using h1
      simp [change_kernel, hempty, hb, this]
    · simp only [Bool.not_eq_true] at hb
      simp [change_kernel, hempty, hb]

/-- C3 witness: the amended case analysis instantiated at concrete inputs —
an empty spec set on startup shows the notice once and suppresses the second
startup check, a singleton spec set on startup auto-selects, and two specs on
a manual call open the selection dialog. -/
theorem change_kernel_cases_witness :
    ((change_kernel [] [] true none).action = .showNoKernelsDialog ↔
        true = true ∧ ([] : List String).contains "no-kernels" = false) ∧
      (change_kernel [] (change_kernel [] [] true none).dialogs true none).action =
        .noAction ∧
      (change_kernel ["python3"] [] true none).action = .changeTo "python3" ∧
      (change_kernel ["a", "b"] [] false none).action =
        .showChangeKernelDialog none ["a", "b"] :=
  ⟨((change_kernel_cases [] [] true none none).1 rfl).2.2,
    (change_kernel_cases [] [] true none none).2.1 rfl rfl,
    (change_kernel_cases ["python3"] [] true none none).2.2.1 rfl "python3" rfl,
    (change_kernel_cases ["a", "b"] [] false none none).2.2.2
      (by simp) (by intro h; exact absurd h (by simp))⟩

/-- C7: inserting capacity + 5 records into an empty log queue of the given
capacity leaves exactly the last capacity records (the oldest 5 evicted
first), and the hook trace invokes every registered callable hook exactly once
per inserted record, in order, independent of eviction. -/
theorem log_queue_capacity (cap : Nat) (rs : List LogRecord)
    (hooks : List (Nat × HookFn))
    (hlen : rs.length = cap + 5)
    (hcall : ∀ p ∈ hooks, p.2.callable = true) :
    (emit_all cap hooks [] rs).1 = rs.drop 5 ∧
      (emit_all cap hooks [] rs).1.length = cap ∧
      (emit_all cap hooks [] rs).2 =
        (rs.map (fun r => (hooks.map Prod.snd).map (fun h => (h, r)))).flatten := by
  have hq : (emit_all cap hooks [] rs).1 = rs.drop 5 := by
    rw [emit_all_queue, fold_deque_append cap rs [] (by simp)]
    simp only [List.nil_append, List.length_nil, Nat.zero_add]
    congr 1
    omega
  have hfilter : (hooks.map Prod.snd).filter (fun h => h.callable) =
      hooks.map Prod.snd := by
    apply List.filter_eq_self.mpr
    intro a ha
    obtain ⟨p, hp, hpa⟩ := List.mem_map.mp ha
    rw [← hpa]
    exact hcall p hp
  refine ⟨hq, ?_, ?_⟩
  · rw [hq]
    simp only [List.length_drop, hlen]
    omega
  · rw [emit_all_trace, hfilter]

/-- C7 witness: capacity 2 with seven records and one registered hook — five
records evicted, two remain, the hook fires once per record. -/
theorem log_queue_capacity_witness :
    (emit_all 2 sample_hooks [] sample_records).1 = sample_records.drop 5 ∧
      (emit_all 2 sample_hooks [] sample_records).1.length = 2 ∧
      (emit_all 2 sample_hooks [] sample_records).2 =
        (sample_records.map (fun r =>
          (sample_hooks.map Prod.snd).map (fun h => (h, r)))).flatten :=
  log_queue_capacity 2 sample_records sample_hooks (by decide) (by decide)

/-- C10: hook ids are unique and never reused — each registration returns the
current counter and strictly increments it, a freshly returned id is not
already registered and well-formedness is preserved, registering the same
function twice yields two distinct ids and makes that function fire twice per
emitted record, and unhooking an unregistered id is a no-op. -/
theorem hook_ids_unique (st : QueueHandlerState) (f : HookFn) (j cap : Nat)
    (q : List LogRecord) (r : LogRecord)
    (hwf : qh_wf st)
    (hcall : f.callable = true)
    (hnew : ∀ p ∈ st.hooks, p.2 ≠ f)
    (habsent : dcontains st.hooks j = false) :
    (qh_hook st f).1 = st.hook_id ∧
      (qh_hook st f).2.hook_id = st.hook_id + 1 ∧
      dcontains st.hooks (qh_hook st f).1 = false ∧
      qh_wf (qh_hook st f).2 ∧
      (qh_hook (qh_hook st f).2 f).1 ≠ (qh_hook st f).1 ∧
      (emit cap (qh_hook (qh_hook st f).2 f).2.hooks q r).2.count (f, r) = 2 ∧
      qh_unhook st j = st := by
  have fresh0 : dcontains st.hooks st.hook_id = false := by
    apply dcontains_eq_false_of_ne
    intro p hp
    exact Nat.ne_of_lt (hwf p hp)
  have e1 : (qh_hook st f).2.hooks = st.hooks ++ [(st.hook_id, f)] :=
    dset_fresh st.hooks st.hook_id f fresh0
  have fresh1 : dcontains (st.hooks ++ [(st.hook_id, f)]) (st.hook_id + 1) = false := by
    apply dcontains_eq_false_of_ne
    intro p hp
    rcases List.mem_append.mp hp with hmem | hmem
    · exact Nat.ne_of_lt (Nat.lt_succ_of_lt (hwf p hmem))
    · simp only [List.mem_singleton] at hmem
      subst hmem
      omega
  have e2 : (qh_hook (qh_hook st f).2 f).2.hooks =
      (st.hooks ++ [(st.hook_id, f)]) ++ [(st.hook_id + 1, f)] := by
    show dset (qh_hook st f).2.hooks (qh_hook st f).2.hook_id f = _
    rw [e1]
    exact dset_fresh _ _ f (by simpa using fresh1)
  refine ⟨rfl, rfl, fresh0, ?_, ?_, ?_, ?_⟩
  · intro p hp
    rw [e1] at hp
    rcases List.mem_append.mp hp with hmem | hmem
    · exact Nat.lt_succ_of_lt (hwf p hmem)
    · simp only [List.mem_singleton] at hmem
      subst hmem
      exact Nat.lt_succ_self _
  · show st.hook_id + 1 ≠ st.hook_id
    omega
  · rw [emit]
    simp only
    rw [e2]
    have hnotin : f ∉ (st.hooks.map Prod.snd).filter (fun h => h.callable) := by
      intro hmem
      obtain ⟨p, hp, hpa⟩ := List.mem_map.mp (List.mem_of_mem_filter hmem)
      exact hnew p hp hpa
    have hexp : ((((st.hooks ++ [(st.hook_id, f)]) ++ [(st.hook_id + 1, f)]).map
          Prod.snd).filter (fun h => h.callable)).map (fun h => (h, r)) =
        ((st.hooks.map Prod.snd).filter (fun h => h.callable)).map (fun h => (h, r)) ++
          [(f, r), (f, r)] := by
      simp [List.map_append, List.filter_append, hcall]
    rw [hexp, List.count_append]
    have hzero : List.count (f, r)
        (((st.hooks.map Prod.snd).filter (fun h => h.callable)).map
          (fun h => (h, r))) = 0 := by
      apply List.count_eq_zero.mpr
      intro hmem
      obtain ⟨a, ha, hae⟩ := List.mem_map.mp hmem
      have haf : a = f := by simpa using congrArg Prod.fst hae
      subst haf
      exact hnotin ha
    rw [hzero]
    simp [List.count_cons]
  · simp [qh_unhook, habsent]

/-- C10 witness: from the initial empty hook state, hooking the sample viewer
function twice returns ids 0 and 1, it fires twice on an emitted record, and
unhooking the unregistered id 3 changes nothing. -/
theorem hook_ids_unique_witness :
    (qh_hook ⟨0, []⟩ ⟨"viewer", true⟩).1 = 0 ∧
      (qh_hook ⟨0, []⟩ ⟨"viewer", true⟩).2.hook_id = 0 + 1 ∧
      dcontains ([] : List (Nat × HookFn)) (qh_hook ⟨0, []⟩ ⟨"viewer", true⟩).1 =
        false ∧
      qh_wf (qh_hook ⟨0, []⟩ ⟨"viewer", true⟩).2 ∧
      (qh_hook (qh_hook ⟨0, []⟩ ⟨"viewer", true⟩).2 ⟨"viewer", true⟩).1 ≠
        (qh_hook ⟨0, []⟩ ⟨"viewer", true⟩).1 ∧
      (emit 5 (qh_hook (qh_hook ⟨0, []⟩ ⟨"viewer", true⟩).2 ⟨"viewer", true⟩).2.hooks
          [] ⟨0, 20, "msg", "euporie.log"⟩).2.count
        (⟨"viewer", true⟩, ⟨0, 20, "msg", "euporie.log"⟩) = 2 ∧
      qh_unhook ⟨0, []⟩ 3 = ⟨0, []⟩ :=
  hook_ids_unique ⟨0, []⟩ ⟨"viewer", true⟩ 3 5 [] ⟨0, 20, "msg", "euporie.log"⟩
    (by intro p hp; simp at hp) rfl (by intro p hp; simp at hp) rfl

/-- C8: setting kernel_name mutates only the "name" entry inside the
"kernelspec" sub-mapping — every other top-level key and every other
kernelspec entry is unchanged — and when no kernel name is present the getter
returns the configured default kernel name. -/
theorem kernel_name_frame (md : Metadata) (v dflt : String)
    (hwf : kernelspec_is_dict_or_absent md = true) :
    ∃ md', kernel_name_set md v = some md' ∧
      (∀ k, k ≠ "kernelspec" → dlookup md' k = dlookup md k) ∧
      dlookup md' "kernelspec" =
        some (.dict (dset (kernelspec_entries md) "name" v)) ∧
      dlookup (dset (kernelspec_entries md) "name" v) "name" = some v ∧
      (∀ j, j ≠ "name" →
        dlookup (dset (kernelspec_entries md) "name" v) j =
          dlookup (kernelspec_entries md) j) ∧
      (dlookup (kernelspec_entries md) "name" = none →
        kernel_name_get md dflt = some dflt) := by
  match hks : dlookup md "kernelspec" with
  | none =>
      refine ⟨dset md "kernelspec" (.dict (dset [] "name" v)), ?_, ?_, ?_, ?_, ?_, ?_⟩
      · simp [kernel_name_set, hks]
      · intro k hk
        exact dlookup_dset_ne md "kernelspec" k _ hk
      · rw [dlookup_dset_self]
        simp [kernelspec_entries, hks]
      · rw [dlookup_dset_self]
      · intro j hj
        exact dlookup_dset_ne _ "name" j v hj
      · intro _
        simp [kernel_name_get, hks]
  | some (.dict ks) =>
      refine ⟨dset md "kernelspec" (.dict (dset ks "name" v)), ?_, ?_, ?_, ?_, ?_, ?_⟩
      · simp [kernel_name_set, hks]
      · intro k hk
        exact dlookup_dset_ne md "kernelspec" k _ hk
      · rw [dlookup_dset_self]
        simp [kernelspec_entries, hks]
      · rw [dlookup_dset_self]
      · intro j hj
        exact dlookup_dset_ne _ "name" j v hj
      · intro hname
        simp only [kernelspec_entries, hks] at hname
        simp [kernel_name_get, hks, hname]
  | some (.leaf s) =>
      exfalso
      rw [kernelspec_is_dict_or_absent, hks] at hwf
      exact Bool.false_ne_true hwf

/-- C8 witness: setting the kernel name on metadata that holds a kernelspec
display name and a language_info block keeps both, and the getter falls back
to the default before the name is set. -/
theorem kernel_name_frame_witness :
    ∃ md', kernel_name_set
          [("kernelspec", .dict [("display_name", "Python 3")]),
            ("language_info", .dict [("file_extension", ".py")])] "python3" =
        some md' ∧
      (∀ k, k ≠ "kernelspec" →
        dlookup md' k =
          dlookup [("kernelspec", .dict [("display_name", "Python 3")]),
            ("language_info", .dict [("file_extension", ".py")])] k) ∧
      dlookup md' "kernelspec" =
        some (.dict (dset (kernelspec_entries
          [("kernelspec", .dict [("display_name", "Python 3")]),
            ("language_info", .dict [("file_extension", ".py")])]) "name" "python3")) ∧
      dlookup (dset (kernelspec_entries
          [("kernelspec", .dict [("display_name", "Python 3")]),
            ("language_info", .dict [("file_extension", ".py")])]) "name" "python3")
          "name" = some "python3" ∧
      (∀ j, j ≠ "name" →
        dlookup (dset (kernelspec_entries
            [("kernelspec", .dict [("display_name", "Python 3")]),
              ("language_info", .dict [("file_extension", ".py")])]) "name" "python3") j =
          dlookup (kernelspec_entries
            [("kernelspec", .dict [("display_name", "Python 3")]),
              ("language_info", .dict [("file_extension", ".py")])]) j) ∧
      (dlookup (kernelspec_entries
          [("kernelspec", .dict [("display_name", "Python 3")]),
            ("language_info", .dict [("file_extension", ".py")])]) "name" = none →
        kernel_name_get
            [("kernelspec", .dict [("display_name", "Python 3")]),
              ("language_info", .dict [("file_extension", ".py")])] "python3" =
          some "python3") :=
  kernel_name_frame
    [("kernelspec", .dict [("display_name", "Python 3")]),
      ("language_info", .dict [("file_extension", ".py")])] "python3" "python3"
    (by decide)

end Euporie
